import Mathlib

/-!
Shallow embedding of the daily-quota / cost-accounting / duplicate-image-detection
workflow of `ai_market_app.py` (repository TN_PIC).

The ledger (`daily_usage.json`) is a JSON object keyed by ISO date string whose
values are objects `{count, cost}`.  We embed it as an association list from
date strings to `Entry`.  Python's arbitrary-precision ints become `Int`; the
float `cost` is embedded as the exact rational `Rat` (Python float rounding is
out of scope of this embedding).

External effects (the Replicate image-generation call, the per-image download
fetch and similarity check performed between generation and the ledger update,
and the reference-image fetches inside `check_image_similarity`) are passed in
as oracle functions returning `Except`, mirroring Python calls that either
return a value or raise.
-/

namespace TNPIC

/-- One value of the `daily_usage.json` mapping: `{"count": ..., "cost": ...}`
(created as `{"count": 0, "cost": 0.0}` on first access to a new date). -/
structure Entry where
  count : Int
  cost : Rat
  deriving DecidableEq

/-- A date key, an ISO 8601 date string (`str(date.today())`). -/
abbrev Date := String

/-- An image locator (URL string). -/
abbrev Url := String

/-- The in-memory form of `daily_usage.json`: a finite mapping from date
strings to entries, embedded as an association list (first match wins). -/
abbrev Ledger := List (Date × Entry)

/-- Dictionary lookup `daily_data.get(d)`. -/
def lookupEntry : Ledger → Date → Option Entry
  | [], _ => none
  | (k, v) :: rest, d => if k = d then some v else lookupEntry rest d

/-- Dictionary assignment `daily_data[d] = e` (replace in place, or append a
new key). -/
def setEntry : Ledger → Date → Entry → Ledger
  | [], d, e => [(d, e)]
  | (k, v) :: rest, d, e => if k = d then (d, e) :: rest else (k, v) :: setEntry rest d e

/-- The entry the generation tab works with for a date: the stored entry, or
`{"count": 0, "cost": 0.0}` when the date is absent (lines 147-148). -/
def entryOf (L : Ledger) (d : Date) : Entry :=
  (lookupEntry L d).getD ⟨0, 0⟩

/-- The day's generated-image count, `daily_data[d]["count"]`. -/
def countOf (L : Ledger) (d : Date) : Int :=
  (entryOf L d).count

/-- The day's accrued cost, `daily_data[d]["cost"]`. -/
def costOf (L : Ledger) (d : Date) : Rat :=
  (entryOf L d).cost

/-- Line 149: `remaining = max(0, 10 - daily_data[today_str]["count"])`. -/
def remainingOf (L : Ledger) (d : Date) : Int :=
  max 0 (10 - countOf L d)

/-- Lines 147-148: `if today_str not in daily_data: daily_data[today_str] =
{"count": 0, "cost": 0.0}`. -/
def lazyInit (L : Ledger) (d : Date) : Ledger :=
  match lookupEntry L d with
  | none => setEntry L d ⟨0, 0⟩
  | some _ => L

/-- Line 144: `COST_PER_IMAGE = 0.02` (exact rational 1/50). -/
def COST_PER_IMAGE : Rat := 1 / 50

/-- Lines 185-186 generalized to the spec's ledger contract
`record_usage(date, images_generated, unit_cost)`:
`daily_data[d]["count"] += n` and `daily_data[d]["cost"] += n * c`. -/
def record_usage (L : Ledger) (d : Date) (n : Int) (c : Rat) : Ledger :=
  setEntry L d ⟨(entryOf L d).count + n, (entryOf L d).cost + (n : Rat) * c⟩

/-- Repeated `record_usage` calls on one date, one per list element `(n, c)`. -/
def applyUsages (d : Date) : List (Int × Rat) → Ledger → Ledger
  | [], L => L
  | (n, c) :: rest, L => applyUsages d rest (record_usage L d n c)

/-- The possible states of the `daily_usage.json` backing store as seen by
`load_daily_data` (lines 30-34): the file may be absent, present but
unreadable (`open` raises `OSError`), present but not valid JSON (`json.load`
raises `JSONDecodeError`), or present and valid. -/
inductive FileState where
  | missing : FileState
  | unreadable : FileState
  | corrupt : FileState
  | valid (data : Ledger) : FileState
  deriving DecidableEq

/-- Lines 30-34: `load_daily_data` returns `{}` when the file does not exist,
returns the parsed mapping when it exists and parses, and otherwise lets the
exception from `open` / `json.load` propagate (there is no try/except). -/
def load_daily_data : FileState → Except String Ledger
  | .missing => .ok []
  | .unreadable => .error "OSError"
  | .corrupt => .error "JSONDecodeError"
  | .valid data => .ok data

/-- The ways a run of the generation tab can fail: the quota branch at line
153 (no generation attempted), or any exception inside the `try` of lines
159-190, caught at line 191 and surfaced as the `画像生成失敗` error with the
underlying cause attached. -/
inductive GenError where
  | quotaExceeded : GenError
  | generationFailed (cause : String) : GenError
  deriving DecidableEq

/-- The observable outcome of one run of the generation tab: the caller-visible
result, the persisted ledger afterwards (`daily_usage.json` is rewritten only
by `save_daily_data` at line 187), and the trace of arguments passed to the
external provider `generate_image` (instrumentation for counting calls). -/
structure StepResult where
  result : Except GenError (List Url)
  ledger : Ledger
  providerArgs : List Int

/-- The per-image body of the loop at lines 162-183, run once per returned
URL before the ledger update: the download fetch `requests.get(url)` at line
166 and the optional similarity check at lines 175-183, either of which may
raise.  The whole loop is modelled by folding an oracle over the URLs,
stopping at the first raised exception. -/
def postAll (post : Url → Except String Unit) : List Url → Except String Unit
  | [] => .ok ()
  | u :: rest =>
    match post u with
    | .error e => .error e
    | .ok _ => postAll post rest

/-- Lines 144-192, one run of the image-generation tab (the spec's
`generate`): lazily initialise today's entry, compute `remaining`; if
`remaining <= 0` stop with a warning (no provider call, file untouched);
otherwise clamp `actual_generate = min(num_outputs, remaining)`, call the
provider once with the clamped count, run the per-image post-processing, and
only then add `len(urls)` to `count`, `len(urls) * COST_PER_IMAGE` to `cost`,
and persist.  Any exception after the provider call leaves the file
untouched (the `except` at line 191 skips lines 185-187). -/
def generateStep (provider : Int → Except String (List Url))
    (post : Url → Except String Unit) (ledger0 : Ledger) (today : Date)
    (num_outputs : Int) : StepResult :=
  let daily_data := lazyInit ledger0 today
  let remaining := remainingOf daily_data today
  if remaining ≤ 0 then
    ⟨.error .quotaExceeded, ledger0, []⟩
  else
    let actual_generate := min num_outputs remaining
    match provider actual_generate with
    | .error e => ⟨.error (.generationFailed e), ledger0, [actual_generate]⟩
    | .ok urls =>
      match postAll post urls with
      | .error e => ⟨.error (.generationFailed e), ledger0, [actual_generate]⟩
      | .ok _ =>
        ⟨.ok urls,
         record_usage daily_data today (urls.length : Int) COST_PER_IMAGE,
         [actual_generate]⟩

/-- The ledger states this program can persist, starting from an empty or
absent store (`load_daily_data` of a missing file gives `{}`): each run of
the generation tab maps the persisted ledger to the one in its result. -/
inductive ReachableLedger : Ledger → Prop where
  | empty : ReachableLedger []
  | step (provider : Int → Except String (List Url))
      (post : Url → Except String Unit) (L : Ledger) (d : Date) (n : Int)
      (h : ReachableLedger L) :
      ReachableLedger (generateStep provider post L d n).ledger

/-- Lines 100-110, `check_image_similarity`, abstracted over the image fetch
(`requests.get` + `Image.open`, which may raise per URL), the perceptual hash
`imagehash.phash`, and the hash distance `gen_hash - ref_hash`.  The loop body
for the reference list: hash each reference and keep `(ref_url, distance)`
when `distance <= threshold`; a raised exception anywhere discards all
warnings collected so far and propagates. -/
def checkRefs {Img Fp : Type} (fetch : Url → Except String Img)
    (phash : Img → Fp) (dist : Fp → Fp → Nat) (gen_hash : Fp)
    (threshold : Nat) : List Url → Except String (List (Url × Nat))
  | [] => .ok []
  | ref_url :: rest =>
    match fetch ref_url with
    | .error e => .error e
    | .ok ref_img =>
      let distance := dist gen_hash (phash ref_img)
      match checkRefs fetch phash dist gen_hash threshold rest with
      | .error e => .error e
      | .ok ws => .ok (if distance ≤ threshold then (ref_url, distance) :: ws else ws)

/-- The threshold default of `check_image_similarity` (line 100,
`threshold=5`); the call site at line 177 relies on it. -/
def defaultThreshold : Nat := 5

/-- Lines 100-110: fetch and hash the generated image, then compare it
against every reference URL (the spec's `find_matches` over fetched
fingerprints), returning the warning list or the first raised exception. -/
def check_image_similarity {Img Fp : Type} (fetch : Url → Except String Img)
    (phash : Img → Fp) (dist : Fp → Fp → Nat) (generated_url : Url)
    (reference_urls : List Url) (threshold : Nat) :
    Except String (List (Url × Nat)) :=
  match fetch generated_url with
  | .error e => .error e
  | .ok gen_img => checkRefs fetch phash dist (phash gen_img) threshold reference_urls

-- Basic ledger lemmas ------------------------------------------------------

theorem lookupEntry_setEntry_self (L : Ledger) (d : Date) (e : Entry) :
    lookupEntry (setEntry L d e) d = some e := by
  induction L with
  | nil => simp [setEntry, lookupEntry]
  | cons kv rest ih =>
    obtain ⟨k, v⟩ := kv
    by_cases h : k = d
    · simp [setEntry, lookupEntry, h]
    · simp [setEntry, lookupEntry, h, ih]

theorem lookupEntry_setEntry_ne (L : Ledger) (d d' : Date) (e : Entry) (h : d' ≠ d) :
    lookupEntry (setEntry L d e) d' = lookupEntry L d' := by
  have hne : d ≠ d' := fun h' => h h'.symm
  induction L with
  | nil => simp [setEntry, lookupEntry, hne]
  | cons kv rest ih =>
    obtain ⟨k, v⟩ := kv
    by_cases hk : k = d
    · subst hk
      simp [setEntry, lookupEntry, hne]
    · by_cases hk' : k = d'
      · simp [setEntry, lookupEntry, hk, hk', hne, h]
      · simp [setEntry, lookupEntry, hk, hk', ih]

theorem entryOf_lazyInit_self (L : Ledger) (d : Date) :
    entryOf (lazyInit L d) d = entryOf L d := by
  unfold lazyInit entryOf
  cases h : lookupEntry L d with
  | none => simp [lookupEntry_setEntry_self, h]
  | some e => simp [h]

theorem entryOf_lazyInit_ne (L : Ledger) (d d' : Date) (h : d' ≠ d) :
    entryOf (lazyInit L d) d' = entryOf L d' := by
  unfold lazyInit entryOf
  cases hl : lookupEntry L d with
  | none => simp [lookupEntry_setEntry_ne L d d' _ h]
  | some e => simp

theorem remainingOf_lazyInit_self (L : Ledger) (d : Date) :
    remainingOf (lazyInit L d) d = remainingOf L d := by
  simp [remainingOf, countOf, entryOf_lazyInit_self]

theorem countOf_record_usage_self (L : Ledger) (d : Date) (n : Int) (c : Rat) :
    countOf (record_usage L d n c) d = countOf L d + n := by
  simp [countOf, record_usage, entryOf, lookupEntry_setEntry_self]

theorem costOf_record_usage_self (L : Ledger) (d : Date) (n : Int) (c : Rat) :
    costOf (record_usage L d n c) d = costOf L d + (n : Rat) * c := by
  simp [costOf, countOf, record_usage, entryOf, lookupEntry_setEntry_self]

theorem countOf_record_usage_ne (L : Ledger) (d d' : Date) (n : Int) (c : Rat)
    (h : d' ≠ d) : countOf (record_usage L d n c) d' = countOf L d' := by
  simp [countOf, record_usage, entryOf, lookupEntry_setEntry_ne L d d' _ h]

theorem costOf_record_usage_ne (L : Ledger) (d d' : Date) (n : Int) (c : Rat)
    (h : d' ≠ d) : costOf (record_usage L d n c) d' = costOf L d' := by
  simp [costOf, record_usage, entryOf, lookupEntry_setEntry_ne L d d' _ h]

theorem countOf_lazyInit (L : Ledger) (d d' : Date) :
    countOf (lazyInit L d) d' = countOf L d' := by
  by_cases h : d' = d
  · subst h
    simp [countOf, entryOf_lazyInit_self]
  · simp [countOf, entryOf_lazyInit_ne L d d' h]

theorem costOf_lazyInit (L : Ledger) (d d' : Date) :
    costOf (lazyInit L d) d' = costOf L d' := by
  by_cases h : d' = d
  · subst h
    simp [costOf, entryOf_lazyInit_self]
  · simp [costOf, entryOf_lazyInit_ne L d d' h]

theorem remainingOf_nonneg (L : Ledger) (d : Date) : 0 ≤ remainingOf L d :=
  le_max_left 0 _

-- Orchestrator case analysis ------------------------------------------------

theorem generateStep_ledger_cases (provider : Int → Except String (List Url))
    (post : Url → Except String Unit) (L : Ledger) (d : Date) (n : Int) :
    (generateStep provider post L d n).ledger = L ∨
    ∃ k : Nat, (generateStep provider post L d n).ledger =
      record_usage (lazyInit L d) d (k : Int) COST_PER_IMAGE := by
  by_cases h : remainingOf L d ≤ 0
  · left
    simp [generateStep, remainingOf_lazyInit_self, h]
  · rcases hp : provider (min n (remainingOf L d)) with e | urls
    · left
      simp [generateStep, remainingOf_lazyInit_self, h, hp]
    · rcases hq : postAll post urls with e | u
      · left
        simp [generateStep, remainingOf_lazyInit_self, h, hp, hq]
      · right
        exact ⟨urls.length, by simp [generateStep, remainingOf_lazyInit_self, h, hp, hq]⟩

theorem generateStep_cost_delta (provider : Int → Except String (List Url))
    (post : Url → Except String Unit) (L : Ledger) (d : Date) (n : Int) (d' : Date) :
    costOf (generateStep provider post L d n).ledger d' - costOf L d' =
      ((countOf (generateStep provider post L d n).ledger d' - countOf L d' : Int) : Rat) *
        COST_PER_IMAGE := by
  rcases generateStep_ledger_cases provider post L d n with h | ⟨k, h⟩
  · rw [h]
    simp
  · rw [h]
    by_cases hd : d' = d
    · subst hd
      rw [costOf_record_usage_self, countOf_record_usage_self, costOf_lazyInit, countOf_lazyInit]
      push_cast
      ring
    · rw [costOf_record_usage_ne _ _ _ _ _ hd, countOf_record_usage_ne _ _ _ _ _ hd,
        costOf_lazyInit, countOf_lazyInit]
      simp

-- Similarity-checker lemmas -------------------------------------------------

theorem checkRefs_error_of_mem {Img Fp : Type} (fetch : Url → Except String Img)
    (phash : Img → Fp) (dist : Fp → Fp → Nat) (gh : Fp) (t : Nat)
    (refs : List Url) (r : Url) (e : String) (hr : r ∈ refs)
    (he : fetch r = .error e) :
    ∃ e2, checkRefs fetch phash dist gh t refs = .error e2 := by
  induction refs with
  | nil => cases hr
  | cons a rest ih =>
    rcases List.mem_cons.mp hr with h | h
    · subst h
      exact ⟨e, by simp [checkRefs, he]⟩
    · rcases ha : fetch a with e' | img
      · exact ⟨e', by simp [checkRefs, ha]⟩
      · obtain ⟨e2, h2⟩ := ih h
        exact ⟨e2, by simp [checkRefs, ha, h2]⟩

theorem checkRefs_total_fetch {Img Fp : Type} (fetchFn : Url → Img)
    (phash : Img → Fp) (dist : Fp → Fp → Nat) (gh : Fp) (t : Nat)
    (refs : List Url) :
    checkRefs (fun u => .ok (fetchFn u)) phash dist gh t refs =
      .ok (refs.filterMap fun r =>
        if dist gh (phash (fetchFn r)) ≤ t then some (r, dist gh (phash (fetchFn r)))
        else none) := by
  induction refs with
  | nil => simp [checkRefs]
  | cons a rest ih =>
    simp only [checkRefs, ih, List.filterMap_cons]
    by_cases h : dist gh (phash (fetchFn a)) ≤ t
    · simp [h]
    · simp [h]

-- Claim theorems ------------------------------------------------------------

/-- C1: in every ledger state whose remaining quota for today is at most 0,
a run of the generation tab fails on the quota branch (modelled as
`GenError.quotaExceeded`), leaves the persisted ledger untouched, and passes
no argument to the external provider (zero provider calls). -/
theorem quota_exhausted_no_provider_call (provider : Int → Except String (List Url))
    (post : Url → Except String Unit) (L : Ledger) (d : Date) (n : Int)
    (h : remainingOf L d ≤ 0) :
    generateStep provider post L d n = ⟨.error .quotaExceeded, L, []⟩ := by
  simp [generateStep, remainingOf_lazyInit_self, h]

/-- Witness for C1: with today's count already 10 the remaining quota is 0 and
the run returns the quota error with an empty provider-call trace. -/
theorem quota_exhausted_no_provider_call_witness :
    remainingOf [("2025-09-01", ⟨10, 1/5⟩)] "2025-09-01" ≤ 0 ∧
    generateStep (fun _ => .ok ["u1"]) (fun _ => .ok ())
        [("2025-09-01", ⟨10, 1/5⟩)] "2025-09-01" 3 =
      ⟨.error .quotaExceeded, [("2025-09-01", ⟨10, 1/5⟩)], []⟩ :=
  ⟨by decide, quota_exhausted_no_provider_call _ _ _ _ _ (by decide)⟩

/-- C2: whenever the remaining quota r is positive, the count passed to the
external generator is exactly `min(num_outputs, r)`; in particular with daily
limit 10, prior count 8 and requested count 5 the provider is called with 2,
and when it returns 2 images the day's count becomes 10 and the remaining
quota becomes 0. -/
theorem clamped_count_passed_to_provider :
    (∀ (provider : Int → Except String (List Url)) (post : Url → Except String Unit)
        (L : Ledger) (d : Date) (n : Int), 0 < remainingOf L d →
        (generateStep provider post L d n).providerArgs = [min n (remainingOf L d)]) ∧
    (generateStep (fun _ => .ok ["u1", "u2"]) (fun _ => .ok ())
        [("2025-09-01", ⟨8, 4/25⟩)] "2025-09-01" 5).providerArgs = [2] ∧
    countOf (generateStep (fun _ => .ok ["u1", "u2"]) (fun _ => .ok ())
        [("2025-09-01", ⟨8, 4/25⟩)] "2025-09-01" 5).ledger "2025-09-01" = 10 ∧
    remainingOf (generateStep (fun _ => .ok ["u1", "u2"]) (fun _ => .ok ())
        [("2025-09-01", ⟨8, 4/25⟩)] "2025-09-01" 5).ledger "2025-09-01" = 0 := by
  refine ⟨?_, by decide, by decide, by decide⟩
  intro provider post L d n h
  have h' : ¬ remainingOf L d ≤ 0 := by omega
  rcases hp : provider (min n (remainingOf L d)) with e | urls
  · simp [generateStep, remainingOf_lazyInit_self, h', hp]
  · rcases hq : postAll post urls with e | u <;>
      simp [generateStep, remainingOf_lazyInit_self, h', hp, hq]

/-- Witness for C2: a state with count 3 leaves remaining quota 7, and a
request for 9 images calls the provider with `min 9 7 = 7`. -/
theorem clamped_count_passed_to_provider_witness :
    0 < remainingOf [("2025-09-02", ⟨3, 3/50⟩)] "2025-09-02" ∧
    (generateStep (fun _ => .ok []) (fun _ => .ok ())
        [("2025-09-02", ⟨3, 3/50⟩)] "2025-09-02" 9).providerArgs = [7] :=
  ⟨by decide, clamped_count_passed_to_provider.1 _ _ _ _ _ (by decide)⟩

/-- C5: whenever the remaining quota is positive and the external generation
call raises, the run surfaces `GenError.generationFailed` carrying the
underlying cause, the persisted ledger is completely unchanged, and the
provider was called exactly once (no automatic retry). -/
theorem provider_error_leaves_ledger_unchanged
    (provider : Int → Except String (List Url)) (post : Url → Except String Unit)
    (L : Ledger) (d : Date) (n : Int) (e : String) (h : 0 < remainingOf L d)
    (he : provider (min n (remainingOf L d)) = .error e) :
    generateStep provider post L d n =
      ⟨.error (.generationFailed e), L, [min n (remainingOf L d)]⟩ := by
  have h' : ¬ remainingOf L d ≤ 0 := by omega
  simp [generateStep, remainingOf_lazyInit_self, h', he]

/-- Witness for C5: empty ledger (zero prior usage), provider raises `boom`;
the caller gets the failure with cause `boom`, the ledger stays empty (count
and cost remain 0), and the provider trace has exactly one call. -/
theorem provider_error_leaves_ledger_unchanged_witness :
    0 < remainingOf [] "2025-09-01" ∧
    (fun _ : Int => (Except.error "boom" : Except String (List Url)))
        (min 4 (remainingOf [] "2025-09-01")) = .error "boom" ∧
    generateStep (fun _ => .error "boom") (fun _ => .ok ()) [] "2025-09-01" 4 =
      ⟨.error (.generationFailed "boom"), [], [4]⟩ :=
  ⟨by decide, rfl,
    provider_error_leaves_ledger_unchanged _ _ _ _ _ _ (by decide) rfl⟩

/-- C9: the remaining quota of a date is `max 0 (10 - count)` with the fixed
daily limit 10, and a date with no ledger record yields the full limit 10. -/
theorem get_remaining_formula (L : Ledger) (d : Date) :
    remainingOf L d = max 0 (10 - countOf L d) ∧
    (lookupEntry L d = none → remainingOf L d = 10) := by
  refine ⟨rfl, fun h => ?_⟩
  simp [remainingOf, countOf, entryOf, h]

/-- Witness for C9: on the empty ledger the formula evaluates and the fresh
date gives 10. -/
theorem get_remaining_formula_witness :
    remainingOf [] "2025-09-01" = max 0 (10 - countOf [] "2025-09-01") ∧
    remainingOf [] "2025-09-01" = 10 :=
  ⟨(get_remaining_formula [] "2025-09-01").1,
    (get_remaining_formula [] "2025-09-01").2 rfl⟩

theorem applyUsages_count (d : Date) (ops : List (Int × Rat)) (L : Ledger) :
    countOf (applyUsages d ops L) d = countOf L d + (ops.map Prod.fst).sum := by
  induction ops generalizing L with
  | nil => simp [applyUsages]
  | cons p rest ih =>
    obtain ⟨n, c⟩ := p
    simp [applyUsages, ih, countOf_record_usage_self]
    ring

theorem applyUsages_cost (d : Date) (ops : List (Int × Rat)) (L : Ledger) :
    costOf (applyUsages d ops L) d =
      costOf L d + (ops.map fun p => (p.1 : Rat) * p.2).sum := by
  induction ops generalizing L with
  | nil => simp [applyUsages]
  | cons p rest ih =>
    obtain ⟨n, c⟩ := p
    simp [applyUsages, ih, costOf_record_usage_self]
    ring

/-- C3: starting from any ledger state in which date d has count 0 and cost
0, performing the `record_usage` increments of lines 185-186 once per pair
`(n_i, c_i)` leaves `count(d)` equal to the sum of the `n_i` and `cost(d)`
equal to the sum of the `n_i * c_i`. -/
theorem record_usage_additivity (L : Ledger) (d : Date) (ops : List (Int × Rat))
    (h1 : countOf L d = 0) (h2 : costOf L d = 0) :
    countOf (applyUsages d ops L) d = (ops.map Prod.fst).sum ∧
    costOf (applyUsages d ops L) d = (ops.map fun p => (p.1 : Rat) * p.2).sum := by
  rw [applyUsages_count, applyUsages_cost, h1, h2]
  simp

/-- Witness for C3: on the empty ledger, recording (2 images at 1/50) then
(3 images at 1/10) yields count 5 and cost 2/50 + 3/10 = 17/50. -/
theorem record_usage_additivity_witness :
    countOf [] "2025-09-01" = 0 ∧ costOf [] "2025-09-01" = 0 ∧
    countOf (applyUsages "2025-09-01" [(2, 1/50), (3, 1/10)] []) "2025-09-01" =
      ([(2, 1/50), (3, 1/10)].map (Prod.fst (α := Int) (β := Rat))).sum ∧
    costOf (applyUsages "2025-09-01" [(2, 1/50), (3, 1/10)] []) "2025-09-01" =
      ([((2 : Int), (1/50 : Rat)), (3, 1/10)].map fun p => (p.1 : Rat) * p.2).sum ∧
    countOf (applyUsages "2025-09-01" [(2, 1/50), (3, 1/10)] []) "2025-09-01" = 5 ∧
    costOf (applyUsages "2025-09-01" [(2, 1/50), (3, 1/10)] []) "2025-09-01" = 17/50 :=
  ⟨rfl, rfl,
    (record_usage_additivity [] "2025-09-01" [(2, 1/50), (3, 1/10)] rfl rfl).1,
    (record_usage_additivity [] "2025-09-01" [(2, 1/50), (3, 1/10)] rfl rfl).2,
    by decide, by
      rw [(record_usage_additivity [] "2025-09-01" [(2, 1/50), (3, 1/10)] rfl rfl).2]
      norm_num⟩

/-- C4 counterexample: the provider is called with 1 and returns one image,
but the per-image post-processing (the download fetch of line 166, here
raising `download failed`) aborts the run before lines 185-187, so the
ledger increment is 0, not the 1 image actually returned by the provider. -/
theorem increment_zero_after_postprocessing_failure :
    (generateStep (fun _ => .ok ["u1"]) (fun _ => .error "download failed")
        [] "2025-09-01" 1).providerArgs = [1] ∧
    (generateStep (fun _ => .ok ["u1"]) (fun _ => .error "download failed")
        [] "2025-09-01" 1).result = .error (.generationFailed "download failed") ∧
    countOf (generateStep (fun _ => .ok ["u1"]) (fun _ => .error "download failed")
        [] "2025-09-01" 1).ledger "2025-09-01" = 0 ∧
    (["u1"] : List Url).length = 1 ∧ (0 : Int) ≠ 1 :=
  ⟨by decide, rfl, by decide, rfl, by decide⟩

/-- C4 amended: the ledger increment of a run never exceeds the number of
images the provider returned, and it equals that number on every run whose
result is a success; a run aborted between generation and the ledger update
applies no increment at all. -/
theorem ledger_increment_bounded_by_produced :
    (∀ (provider : Int → Except String (List Url)) (post : Url → Except String Unit)
        (L : Ledger) (d : Date) (n : Int) (urls : List Url),
        (generateStep provider post L d n).result = .ok urls →
        countOf (generateStep provider post L d n).ledger d =
          countOf L d + (urls.length : Int)) ∧
    (∀ (provider : Int → Except String (List Url)) (post : Url → Except String Unit)
        (L : Ledger) (d : Date) (n : Int) (urls : List Url),
        provider (min n (remainingOf L d)) = .ok urls →
        countOf (generateStep provider post L d n).ledger d - countOf L d ≤
          (urls.length : Int)) := by
  constructor
  · intro provider post L d n urls hres
    by_cases h : remainingOf L d ≤ 0
    · simp [generateStep, remainingOf_lazyInit_self, h] at hres
    · rcases hp : provider (min n (remainingOf L d)) with e | urls'
      · simp [generateStep, remainingOf_lazyInit_self, h, hp] at hres
      · rcases hq : postAll post urls' with e | u
        · simp [generateStep, remainingOf_lazyInit_self, h, hp, hq] at hres
        · have hu : urls' = urls := by
            simpa [generateStep, remainingOf_lazyInit_self, h, hp, hq] using hres
          subst hu
          simp [generateStep, remainingOf_lazyInit_self, h, hp, hq,
            countOf_record_usage_self, countOf_lazyInit]
  · intro provider post L d n urls hp
    by_cases h : remainingOf L d ≤ 0
    · simp [generateStep, remainingOf_lazyInit_self, h]
    · rcases hq : postAll post urls with e | u <;>
        simp [generateStep, remainingOf_lazyInit_self, h, hp, hq,
          countOf_record_usage_self, countOf_lazyInit]

/-- Witness for C4's amended theorem: a clean run returning 2 images
increments the empty ledger's count by exactly 2. -/
theorem ledger_increment_bounded_by_produced_witness :
    (generateStep (fun _ => .ok ["u1", "u2"]) (fun _ => .ok ())
        [] "2025-09-01" 2).result = .ok ["u1", "u2"] ∧
    countOf (generateStep (fun _ => .ok ["u1", "u2"]) (fun _ => .ok ())
        [] "2025-09-01" 2).ledger "2025-09-01" =
      countOf [] "2025-09-01" + ((["u1", "u2"] : List Url).length : Int) :=
  ⟨rfl, ledger_increment_bounded_by_produced.1 _ _ _ _ _ _ rfl⟩

/-- C10: every run changes a day's cost by exactly `COST_PER_IMAGE` times
the change of that day's count, and consequently every ledger reachable by
this program from the empty store satisfies
`cost(d) = count(d) * COST_PER_IMAGE` for every date. -/
theorem cost_equals_count_times_unit_cost :
    (∀ (provider : Int → Except String (List Url)) (post : Url → Except String Unit)
        (L : Ledger) (d : Date) (n : Int) (d' : Date),
        costOf (generateStep provider post L d n).ledger d' - costOf L d' =
          ((countOf (generateStep provider post L d n).ledger d' - countOf L d' : Int) : Rat) *
            COST_PER_IMAGE) ∧
    (∀ L : Ledger, ReachableLedger L →
        ∀ d, costOf L d = (countOf L d : Rat) * COST_PER_IMAGE) := by
  refine ⟨generateStep_cost_delta, fun L h => ?_⟩
  induction h with
  | empty =>
    intro d
    simp [costOf, countOf, entryOf, lookupEntry]
  | step provider post L0 d0 n h ih =>
    intro d
    have hd := generateStep_cost_delta provider post L0 d0 n d
    push_cast at hd
    have h2 : costOf (generateStep provider post L0 d0 n).ledger d =
        costOf L0 d +
          (((countOf (generateStep provider post L0 d0 n).ledger d : Int) : Rat) -
            ((countOf L0 d : Int) : Rat)) * COST_PER_IMAGE := by
      linarith
    rw [h2, ih d]
    ring

/-- Witness for C10: the ledger after one clean run generating 2 images from
the empty store is reachable and satisfies the cost-count coupling; its cost
is 2 * (1/50) = 1/25. -/
theorem cost_equals_count_times_unit_cost_witness :
    ReachableLedger (generateStep (fun _ => .ok ["u1", "u2"]) (fun _ => .ok ())
        [] "2025-09-01" 2).ledger ∧
    costOf (generateStep (fun _ => .ok ["u1", "u2"]) (fun _ => .ok ())
        [] "2025-09-01" 2).ledger "2025-09-01" =
      (countOf (generateStep (fun _ => .ok ["u1", "u2"]) (fun _ => .ok ())
        [] "2025-09-01" 2).ledger "2025-09-01" : Rat) * COST_PER_IMAGE ∧
    costOf (generateStep (fun _ => .ok ["u1", "u2"]) (fun _ => .ok ())
        [] "2025-09-01" 2).ledger "2025-09-01" = 1/25 :=
  ⟨ReachableLedger.step _ _ _ _ _ ReachableLedger.empty,
    cost_equals_count_times_unit_cost.2 _
      (ReachableLedger.step _ _ _ _ _ ReachableLedger.empty) _,
    by
      rw [cost_equals_count_times_unit_cost.2 _
        (ReachableLedger.step _ _ _ _ _ ReachableLedger.empty) "2025-09-01"]
      have hc : countOf (generateStep (fun _ => .ok ["u1", "u2"]) (fun _ => .ok ())
          [] "2025-09-01" 2).ledger "2025-09-01" = 2 := by decide
      rw [hc]
      norm_num [COST_PER_IMAGE]⟩

/-- C6 counterexample: with one unreachable reference URL (`bad`, whose fetch
raises) and one reachable reference (`good`, within the threshold: its
distance to the generated image is 3 <= 5), `check_image_similarity` raises
the fetch error to its caller instead of returning exactly one warning for
the reachable reference. -/
theorem similarity_unreachable_reference_counterexample :
    check_image_similarity
      (fun u => if u = "gen" then Except.ok (0 : Nat) else
        if u = "good" then Except.ok 3 else Except.error "unreachable")
      (fun x : Nat => x) (fun a b => (a - b) + (b - a)) "gen" ["bad", "good"] 5 =
      Except.error "unreachable" ∧
    (fun u : Url => if u = "gen" then Except.ok (0 : Nat) else
        if u = "good" then Except.ok 3 else Except.error "unreachable") "good" =
      Except.ok 3 ∧
    ((3 : Nat) - 0) + (0 - 3) ≤ 5 :=
  ⟨rfl, rfl, by decide⟩

/-- C6 amended: if any reference URL's fetch raises, `check_image_similarity`
propagates an error to its caller and returns no warning list at all; the
remaining references are not reported (there is no per-reference error
handling in lines 104-109). -/
theorem reference_fetch_error_aborts {Img Fp : Type}
    (fetch : Url → Except String Img) (phash : Img → Fp) (dist : Fp → Fp → Nat)
    (generated_url : Url) (reference_urls : List Url) (threshold : Nat)
    (r : Url) (e : String) (hr : r ∈ reference_urls) (he : fetch r = .error e) :
    ∃ e2, check_image_similarity fetch phash dist generated_url reference_urls
      threshold = .error e2 := by
  rcases hg : fetch generated_url with e' | img
  · exact ⟨e', by simp [check_image_similarity, hg]⟩
  · obtain ⟨e2, h2⟩ := checkRefs_error_of_mem fetch phash dist (phash img) threshold
      reference_urls r e hr he
    exact ⟨e2, by simp [check_image_similarity, hg, h2]⟩

/-- Witness for C6's amended theorem: the unreachable reference `bad` is in
the reference list and its fetch raises, so the whole check returns an
error. -/
theorem reference_fetch_error_aborts_witness :
    ("bad" ∈ (["bad", "good"] : List Url)) ∧
    (fun u : Url => if u = "gen" then Except.ok (0 : Nat) else
        if u = "good" then Except.ok 3 else Except.error "unreachable") "bad" =
      Except.error "unreachable" ∧
    ∃ e2, check_image_similarity
      (fun u : Url => if u = "gen" then Except.ok (0 : Nat) else
        if u = "good" then Except.ok 3 else Except.error "unreachable")
      (fun x : Nat => x) (fun a b => (a - b) + (b - a)) "gen" ["bad", "good"] 5 =
      .error e2 :=
  ⟨by decide, rfl,
    reference_fetch_error_aborts _ _ _ _ _ _ "bad" "unreachable" (by decide) rfl⟩

/-- C7 counterexample: with the default threshold 5, two references at
distances 5 and 1 (in that input order) are both kept, but the returned list
pairs them in input order `[(r1, 5), (r2, 1)]`, which is not ordered by
ascending distance. -/
theorem find_matches_not_sorted_counterexample :
    check_image_similarity
      (fun u => Except.ok (if u = "gen" then (0 : Nat) else if u = "r1" then 5 else 1))
      (fun x : Nat => x) (fun a b => (a - b) + (b - a)) "gen" ["r1", "r2"]
      defaultThreshold = Except.ok [("r1", 5), ("r2", 1)] ∧
    ¬ List.Pairwise (fun a b : Url × Nat => a.2 ≤ b.2) [("r1", 5), ("r2", 1)] :=
  ⟨rfl, by decide⟩

/-- C7 amended: when every fetch succeeds, `check_image_similarity` returns
exactly the references whose distance to the generated fingerprint is at most
the threshold, each paired with its distance, in the order of the input
reference list (not sorted by ascending distance). -/
theorem find_matches_filter_in_input_order {Img Fp : Type}
    (fetchFn : Url → Img) (phash : Img → Fp) (dist : Fp → Fp → Nat)
    (generated_url : Url) (reference_urls : List Url) (threshold : Nat) :
    check_image_similarity (fun u => .ok (fetchFn u)) phash dist generated_url
        reference_urls threshold =
      .ok (reference_urls.filterMap fun r =>
        if dist (phash (fetchFn generated_url)) (phash (fetchFn r)) ≤ threshold then
          some (r, dist (phash (fetchFn generated_url)) (phash (fetchFn r)))
        else none) := by
  simp [check_image_similarity, checkRefs_total_fetch]

/-- C8 counterexample: a corrupt existing `daily_usage.json` makes
`json.load` raise (and an unreadable one makes `open` raise); there is no
try/except in `load_daily_data`, so the error propagates instead of the
ledger being treated as empty. -/
theorem load_corrupt_store_counterexample :
    load_daily_data FileState.corrupt = .error "JSONDecodeError" ∧
    load_daily_data FileState.corrupt ≠ .ok [] ∧
    load_daily_data FileState.unreadable = .error "OSError" ∧
    load_daily_data FileState.unreadable ≠ .ok [] :=
  ⟨rfl, fun h => Except.noConfusion h, rfl, fun h => Except.noConfusion h⟩

/-- C8 amended: only an absent backing store is treated as empty (zero prior
usage); an existing but unreadable or corrupt store makes `load_daily_data`
raise, propagating the exception to the caller, while a valid store is
returned as parsed. -/
theorem load_daily_data_cases :
    load_daily_data FileState.missing = .ok [] ∧
    load_daily_data FileState.unreadable = .error "OSError" ∧
    load_daily_data FileState.corrupt = .error "JSONDecodeError" ∧
    ∀ data : Ledger, load_daily_data (FileState.valid data) = .ok data :=
  ⟨rfl, rfl, rfl, fun _ => rfl⟩

end TNPIC
